import Mathlib

/-!
Verification development for the warehouse plan visualizer
(`visualize_warehouse.py`).  The Python state dictionaries are embedded as
insertion-ordered association lists (Python `dict` preserves insertion
order and has unique keys); Python integers are `Int`; optional values
(`None`) are `Option`.  Identifiers produced by the input regexes (`\w+`)
are modelled as `String`s; they are always non-empty in real inputs, so
Python truthiness tests on them (`if current_carrying:` etc.) are modelled
as `Option.isSome` tests on the corresponding `Option String`.
-/

namespace Warehouse

/-! ### Association-list primitives (Python `dict` operations) -/

/-- First-match lookup, `d.get(k)`. -/
def alook {α β : Type} [DecidableEq α] (k : α) : List (α × β) → Option β
  | [] => none
  | e :: l => if e.1 = k then some e.2 else alook k l

/-- Update the value at key `k` in place (`d[k] = f d[k]` for present `k`);
no-op when the key is absent. -/
def aupd {α β : Type} [DecidableEq α] (k : α) (f : β → β) : List (α × β) → List (α × β)
  | [] => []
  | e :: l => if e.1 = k then (e.1, f e.2) :: l else e :: aupd k f l

/-- Assignment `d[k] = v`: overwrite in place when present, append when
absent (Python insertion order). -/
def aset {α β : Type} [DecidableEq α] (k : α) (v : β) : List (α × β) → List (α × β)
  | [] => [(k, v)]
  | e :: l => if e.1 = k then (e.1, v) :: l else e :: aset k v l

/-- `d.setdefault(k, v)`. -/
def asetd {α β : Type} [DecidableEq α] (k : α) (v : β) (l : List (α × β)) : List (α × β) :=
  if (alook k l).isSome then l else l ++ [(k, v)]

/-- `s.add(x)` on a Python `set`, modelled as order-preserving
insert-if-absent on a duplicate-free list. -/
def sinsert {α : Type} [DecidableEq α] (x : α) (l : List α) : List α :=
  if x ∈ l then l else l ++ [x]

/-! ### Data model (the state dictionary built by `parse_init`) -/

/-- Grid coordinate: Python `(x, y)` integer pair. -/
abbrev Coord := Int × Int

/-- One entry of `state['robots']`: `{'pos': (x, y), 'carries': None | shelf_id}`. -/
structure RobotData where
  pos : Coord
  carries : Option String
deriving DecidableEq, Repr

/-- One entry of `state['shelves']`: position is absent while the shelf is
carried (`pop('pos')`), `quantities` maps product id to count. -/
structure ShelfData where
  pos : Option Coord
  quantities : List (String × Int)
deriving DecidableEq, Repr

/-- One entry of `state['orders']`: bound station id and remaining
per-product requirements. -/
structure OrderData where
  station_id : String
  requirements : List (String × Int)
deriving DecidableEq, Repr

/-- The warehouse state dictionary of `visualize_warehouse.py`, lines 33-41. -/
structure WState where
  nodes : List Coord
  highways : List Coord
  picking_stations : List (String × Coord)
  robots : List (String × RobotData)
  shelves : List (String × ShelfData)
  products : List String
  orders : List (String × OrderData)
deriving DecidableEq, Repr

/-- Result of `parse_action_string` (lines 132-153), excluding the
`unknown` case, which `parse_plan` filters out before the plan reaches
`update_state` (line 179). `units` comes from the regex group `(\d+)`,
hence a natural number. -/
inductive Action where
  | move (dx dy : Int)
  | pickup
  | putdown
  | deliver (order product : String) (units : Nat)
deriving DecidableEq, Repr

/-! ### State transition engine (`update_state`, lines 196-302) -/

/-- The first shelf in iteration order whose current position equals `p`
(lines 226-230). -/
def findShelfAt (shelves : List (String × ShelfData)) (p : Coord) : Option String :=
  match shelves with
  | [] => none
  | e :: l => if e.2.pos = some p then some e.1 else findShelfAt l p

/-- Lines 248-254: is some shelf other than `sh` already at `p`? -/
def occupiedOther (shelves : List (String × ShelfData)) (p : Coord) (sh : String) : Bool :=
  shelves.any fun e => decide (e.2.pos = some p) && decide (¬ e.1 = sh)

/-- One iteration of the action loop of `update_state` (lines 203-300):
reads the robot's position and carried shelf from `cur` (the timestep-start
snapshot, lines 206-213) and everything else from, and writes to, the
accumulating `next` state.  An action whose robot is unknown is skipped
(lines 208-210).  The two successive writes of lines 296-298
(`-= units` then clamp negative values to `0`) are fused into one value
update of the same dictionary entry. -/
def applyAction (cur next : WState) (robot_id : String) (action : Action) : WState :=
  match alook robot_id cur.robots with
  | none => next
  | some rc =>
    match action with
    | .move dx dy =>
        { next with
          robots :=
            aupd robot_id (fun rn => { rn with pos := (rc.pos.1 + dx, rc.pos.2 + dy) }) next.robots }
    | .pickup =>
        if rc.carries.isSome then next
        else
          match findShelfAt cur.shelves rc.pos with
          | none => next
          | some shelf_id =>
              let next1 := { next with
                robots :=
                  aupd robot_id (fun rn => { rn with carries := some shelf_id }) next.robots }
              { next1 with
                shelves := aupd shelf_id (fun sd => { sd with pos := none }) next1.shelves }
    | .putdown =>
        match rc.carries with
        | none => next
        | some sh =>
          if rc.pos ∈ next.highways then next
          else if occupiedOther next.shelves rc.pos sh then next
          else
            let next1 := { next with
              robots :=
                aupd robot_id (fun rn => { rn with carries := none }) next.robots }
            { next1 with
              shelves := aupd sh (fun sd => { sd with pos := some rc.pos }) next1.shelves }
    | .deliver order_id product_id units =>
        match rc.carries with
        | none => next
        | some sh =>
          match alook sh next.shelves with
          | none => next
          | some sd =>
            match alook order_id next.orders with
            | none => next
            | some od =>
              if alook product_id sd.quantities = none then next
              else if ¬ alook od.station_id next.picking_stations = some rc.pos then next
              else if (alook product_id sd.quantities).getD 0 < (units : Int) then next
              else
                let next1 := { next with
                  shelves :=
                    aupd sh (fun sd0 => { sd0 with
                      quantities :=
                        aupd product_id (fun q => q - (units : Int)) sd0.quantities }) next.shelves }
                if (alook product_id od.requirements).isSome then
                  { next1 with
                    orders :=
                      aupd order_id (fun od0 => { od0 with
                        requirements :=
                          aupd product_id
                            (fun q => if q - (units : Int) < 0 then 0 else q - (units : Int))
                            od0.requirements }) next1.orders }
                else next1

/-- `update_state(current_state, actions_at_this_step)` (lines 196-302):
`next_state = copy.deepcopy(current_state)` followed by the action fold;
each action reads the timestep-start snapshot for the robot's position and
carried shelf and accumulates its writes in the copy. -/
def update_state (current_state : WState) (actions : List (String × Action)) : WState :=
  actions.foldl (fun next e => applyAction current_state next e.1 e.2) current_state

/-! ### Derived observations used in the claims -/

/-- Quantity of product `p` recorded on shelf `sh` (`.get(product_id, 0)`). -/
def qtyLookup (s : WState) (sh p : String) : Int :=
  ((alook sh s.shelves).bind fun sd => alook p sd.quantities).getD 0

/-- Remaining requirement of order `o` for product `p` (0 when absent). -/
def reqLookup (s : WState) (o p : String) : Int :=
  ((alook o s.orders).bind fun od => alook p od.requirements).getD 0

/-- Position of the picking station bound to order `o`, when both the
order and its station exist (lines 282-283). -/
def orderStationPos (s : WState) (o : String) : Option Coord :=
  (alook o s.orders).bind fun od => alook od.station_id s.picking_stations

/-! ### Fact store (`parse_init`, lines 28-130)

The regex layer of lines 54-61 classifies each input line into one of the
fact shapes below (or leaves it unmatched); the loop body and the
post-pass are embedded over the classified facts.  Coordinates and
quantities come from `(\d+)` groups, hence natural numbers. -/

/-- One classified line of the init file. -/
inductive Fact where
  | node (id : String) (x y : Nat)
  | highway (id : String) (x y : Nat)
  | station (id : String) (x y : Nat)
  | robot (id : String) (x y : Nat)
  | shelfLoc (id : String) (x y : Nat)
  | productQty (product shelf : String) (qty : Nat)
  | orderStation (order station : String)
  | orderLine (order product : String) (qty : Nat)
  | unmatched (line : String)
deriving DecidableEq, Repr

/-- Grid dimensions returned by `parse_init` (line 129). -/
structure PDims where
  x : Nat
  y : Nat
deriving DecidableEq, Repr

/-- Loop accumulator of `parse_init`: the state under construction, the
running bounds, and the three temporary dictionaries of lines 43-45. -/
structure ParseAcc where
  st : WState
  max_x : Nat
  max_y : Nat
  shelf_q_temp : List (String × List (String × Int))
  order_r_temp : List (String × List (String × Int))
  order_s_temp : List (String × String)
deriving DecidableEq, Repr

/-- Nested assignment `temp[k1][k2] = v` on a `defaultdict` of dicts
(lines 87 and 94). -/
def ddset (k1 k2 : String) (v : Int) (l : List (String × List (String × Int))) :
    List (String × List (String × Int)) :=
  match alook k1 l with
  | some _ => aupd k1 (aset k2 v) l
  | none => l ++ [(k1, [(k2, v)])]

/-- One iteration of the line loop of `parse_init` (lines 63-96). -/
def processFact (acc : ParseAcc) (f : Fact) : ParseAcc :=
  match f with
  | .node _ x y =>
      { acc with
        st := { acc.st with nodes := sinsert ((x : Int), (y : Int)) acc.st.nodes },
        max_x := max acc.max_x x, max_y := max acc.max_y y }
  | .highway _ x y =>
      { acc with st := { acc.st with highways := sinsert ((x : Int), (y : Int)) acc.st.highways } }
  | .station sid x y =>
      { acc with
        st := { acc.st with
          picking_stations := aset sid ((x : Int), (y : Int)) acc.st.picking_stations } }
  | .robot rid x y =>
      { acc with
        st := { acc.st with robots := aset rid ⟨((x : Int), (y : Int)), none⟩ acc.st.robots } }
  | .shelfLoc sid x y =>
      if (alook sid acc.st.shelves).isSome then
        { acc with
          st := { acc.st with
            shelves :=
              aupd sid (fun sd => { sd with pos := some ((x : Int), (y : Int)) })
                acc.st.shelves } }
      else
        { acc with
          st := { acc.st with
            shelves := acc.st.shelves ++ [(sid, ⟨some ((x : Int), (y : Int)), []⟩)] } }
  | .productQty pid sid qty =>
      { acc with
        st := { acc.st with products := sinsert pid acc.st.products },
        shelf_q_temp := ddset sid pid (qty : Int) acc.shelf_q_temp }
  | .orderStation oid sid =>
      { acc with order_s_temp := aset oid sid acc.order_s_temp }
  | .orderLine oid pid qty =>
      { acc with
        st := { acc.st with products := sinsert pid acc.st.products },
        order_r_temp := ddset oid pid (qty : Int) acc.order_r_temp }
  | .unmatched _ => acc

/-- Lines 99-103: attach the accumulated quantity dictionaries to existing
shelves; quantities for a shelf that was never declared are dropped (with
a warning). -/
def linkShelves (st : WState) (tmp : List (String × List (String × Int))) : WState :=
  tmp.foldl
    (fun st0 e =>
      if (alook e.1 st0.shelves).isSome then
        { st0 with shelves := aupd e.1 (fun sd => { sd with quantities := e.2 }) st0.shelves }
      else st0)
    st

/-- Lines 105-112: create the order entries, dropping orders that have
lines but no station binding (with a warning). -/
def linkOrders (st : WState) (rtmp : List (String × List (String × Int)))
    (stmp : List (String × String)) : WState :=
  rtmp.foldl
    (fun st0 e =>
      match alook e.1 stmp with
      | some sid => { st0 with orders := aset e.1 ⟨sid, e.2⟩ st0.orders }
      | none => st0)
    st

/-- Lines 114-116: give every shelf a zero default entry for every product
in the global product set. -/
def normShelves (st : WState) : WState :=
  { st with
    shelves :=
      st.shelves.map fun e =>
        (e.1, { e.2 with
          quantities := st.products.foldl (fun qs pid => asetd pid 0 qs) e.2.quantities }) }

/-- Lines 118-120: the same zero-defaulting for order requirements. -/
def normOrders (st : WState) : WState :=
  { st with
    orders :=
      st.orders.map fun e =>
        (e.1, { e.2 with
          requirements := st.products.foldl (fun rs pid => asetd pid 0 rs) e.2.requirements }) }

/-- The empty state dictionary of lines 33-41. -/
def emptyState : WState :=
  { nodes := [], highways := [], picking_stations := [], robots := [], shelves := [],
    products := [], orders := [] }

/-- `parse_init` (lines 28-130) over classified fact lines: the line loop,
the two linking passes, the two normalization passes, and the returned
grid dimensions. -/
def parse_init (facts : List Fact) : WState × PDims :=
  let acc := facts.foldl processFact ⟨emptyState, 0, 0, [], [], []⟩
  let st1 := linkShelves acc.st acc.shelf_q_temp
  let st2 := linkOrders st1 acc.order_r_temp acc.order_s_temp
  let st3 := normShelves st2
  let st4 := normOrders st3
  (st4, ⟨acc.max_x, acc.max_y⟩)

/-- Does a fact mention product `p` (as a product-quantity or order-line
fact)?  The global product universe of the spec is the set of products so
mentioned. -/
def mentionsProduct (f : Fact) (p : String) : Bool :=
  match f with
  | .productQty pid _ _ => pid == p
  | .orderLine _ pid _ => pid == p
  | _ => false

/-! ### Plan store (`parse_plan`, lines 155-192)

The JSON document is modelled structurally: `data['Call']` is a list of
calls, each with a list of witnesses, each with a `Value` list of atoms.
An atom either matches the `occurs(object(robot,R), A, T)` regex of
line 173 (with its action component already classified by
`parse_action_string`, an unparseable action being `none`, line 153) or
does not.  Reading failures and JSON decoding failures are the
`missingFile` and `badJson` inputs; `parse_plan` returns `none` for them
(lines 182-190 return `None, 0`). -/

/-- One atom string of a witness `Value` list. -/
inductive PAtom where
  | occursAtom (robot : String) (act : Option Action) (time : Nat)
  | nonOccurs (raw : String)
deriving DecidableEq, Repr

/-- One witness record (its `Value` field, defaulted to `[]`, line 170). -/
structure PWitness where
  value : List PAtom
deriving DecidableEq, Repr

/-- One call record (its `Witnesses` field; absent is modelled as `[]`,
both being falsy to the check on line 165). -/
structure PCall where
  witnesses : List PWitness
deriving DecidableEq, Repr

/-- The decoded JSON document (its `Call` field; absent modelled as `[]`). -/
structure PlanDoc where
  call : List PCall
deriving DecidableEq, Repr

/-- The plan-file input as `parse_plan` can encounter it. -/
inductive PlanInput where
  | missingFile
  | badJson
  | doc (d : PlanDoc)
deriving DecidableEq, Repr

/-- `plan[time].append(entry)` on a `defaultdict(list)` (line 180). -/
def planInsert (plan : List (Nat × List (String × Action))) (t : Nat)
    (entry : String × Action) : List (Nat × List (String × Action)) :=
  if (alook t plan).isSome then aupd t (fun l => l ++ [entry]) plan
  else plan ++ [(t, [entry])]

/-- `parse_plan` (lines 155-192): `none` models the `return None, 0` of the
file-level error handlers; a structurally deficient document (no `Call`,
or no `Witnesses` under the first call) yields the *empty* plan with
`max_time = 0` after a warning (lines 165-167).  Otherwise the first
witness's atoms are folded: every atom matching the `occurs` regex updates
`max_time` (line 177), and those whose action parsed are appended to the
plan (lines 179-180). -/
def parse_plan (input : PlanInput) : Option (List (Nat × List (String × Action)) × Nat) :=
  match input with
  | .missingFile => none
  | .badJson => none
  | .doc d =>
    match d.call with
    | [] => some ([], 0)
    | c :: _ =>
      match c.witnesses with
      | [] => some ([], 0)
      | w :: _ =>
        some (w.value.foldl
          (fun acc atom =>
            match atom with
            | .nonOccurs _ => acc
            | .occursAtom r act t =>
              match act with
              | none => (acc.1, max acc.2 t)
              | some a => (planInsert acc.1 t (r, a), max acc.2 t))
          ([], 0))

/-- Line 473-474 of `__main__`: the run exits (status 1) before any
processing exactly when `parse_plan` returned `None`. -/
def runAborts (input : PlanInput) : Bool :=
  (parse_plan input).isNone

/-! ### Lemmas about the dictionary primitives -/

section AListLemmas

variable {α β : Type} [DecidableEq α]

theorem alook_aupd_self (k : α) (f : β → β) (l : List (α × β)) :
    alook k (aupd k f l) = (alook k l).map f := by
  induction l with
  | nil => simp [alook, aupd]
  | cons e t ih =>
    by_cases h : e.1 = k
    · simp [alook, aupd, h]
    · simp [alook, aupd, h, ih]

theorem alook_aupd_ne {k k' : α} (h : k' ≠ k) (f : β → β) (l : List (α × β)) :
    alook k' (aupd k f l) = alook k' l := by
  induction l with
  | nil => simp [aupd]
  | cons e t ih =>
    by_cases he : e.1 = k
    · have hne : ¬ e.1 = k' := by rw [he]; exact Ne.symm h
      have hkk : ¬ k = k' := fun hk => h hk.symm
      simp [alook, aupd, he, hne, hkk]
    · simp only [aupd, if_neg he, alook]
      by_cases he' : e.1 = k'
      · simp [he']
      · simp [he', ih]

theorem aupd_map_fst (k : α) (f : β → β) (l : List (α × β)) :
    (aupd k f l).map Prod.fst = l.map Prod.fst := by
  induction l with
  | nil => simp [aupd]
  | cons e t ih =>
    by_cases h : e.1 = k
    · simp [aupd, h]
    · simp [aupd, h, ih]

theorem mem_aupd {k : α} {f : β → β} {l : List (α × β)} {e : α × β}
    (h : e ∈ aupd k f l) : e.1 = k ∨ e ∈ l := by
  induction l with
  | nil => simp [aupd] at h
  | cons e0 t ih =>
    by_cases h0 : e0.1 = k
    · rw [aupd, if_pos h0, List.mem_cons] at h
      cases h with
      | inl he => left; rw [he]; exact h0
      | inr he => right; exact List.mem_cons_of_mem _ he
    · rw [aupd, if_neg h0, List.mem_cons] at h
      cases h with
      | inl he => right; rw [he]; exact List.mem_cons_self _ _
      | inr he =>
        cases ih he with
        | inl h' => left; exact h'
        | inr h' => right; exact List.mem_cons_of_mem _ h'

theorem alook_mem {k : α} {l : List (α × β)} {v : β} (h : alook k l = some v) :
    (k, v) ∈ l := by
  induction l with
  | nil => simp [alook] at h
  | cons e t ih =>
    by_cases h0 : e.1 = k
    · rw [alook, if_pos h0, Option.some.injEq] at h
      have he : (k, v) = e := by rw [← h0, ← h]
      rw [he]
      exact List.mem_cons_self _ _
    · rw [alook, if_neg h0] at h
      exact List.mem_cons_of_mem _ (ih h)

theorem alook_isSome_iff_mem_fst (k : α) (l : List (α × β)) :
    (alook k l).isSome ↔ k ∈ l.map Prod.fst := by
  induction l with
  | nil => simp [alook]
  | cons e t ih =>
    by_cases h0 : e.1 = k
    · simp [alook, h0]
    · simp [alook, h0, ih, Ne.symm h0]

theorem alook_isSome_congr {l1 l2 : List (α × β)}
    (h : l1.map Prod.fst = l2.map Prod.fst) (k : α) :
    (alook k l1).isSome = (alook k l2).isSome := by
  by_cases h1 : k ∈ l1.map Prod.fst
  · have h2 : k ∈ l2.map Prod.fst := h ▸ h1
    rw [(alook_isSome_iff_mem_fst k l1).mpr h1, (alook_isSome_iff_mem_fst k l2).mpr h2]
  · have h2 : k ∉ l2.map Prod.fst := h ▸ h1
    have e1 : ¬ (alook k l1).isSome = true := fun hs => h1 ((alook_isSome_iff_mem_fst k l1).mp hs)
    have e2 : ¬ (alook k l2).isSome = true := fun hs => h2 ((alook_isSome_iff_mem_fst k l2).mp hs)
    rw [Bool.not_eq_true] at e1 e2
    rw [e1, e2]

theorem alook_append_of_isSome {k : α} {l1 : List (α × β)} (l2 : List (α × β))
    (h : (alook k l1).isSome) : alook k (l1 ++ l2) = alook k l1 := by
  induction l1 with
  | nil => simp [alook] at h
  | cons e t ih =>
    by_cases h0 : e.1 = k
    · simp [alook, h0]
    · rw [alook, if_neg h0] at h
      simp only [List.cons_append, alook, if_neg h0]
      exact ih h

theorem alook_append_of_none {k : α} {l1 : List (α × β)} (l2 : List (α × β))
    (h : alook k l1 = none) : alook k (l1 ++ l2) = alook k l2 := by
  induction l1 with
  | nil => simp
  | cons e t ih =>
    by_cases h0 : e.1 = k
    · rw [alook, if_pos h0] at h
      exact absurd h (by simp)
    · rw [alook, if_neg h0] at h
      simp only [List.cons_append, alook, if_neg h0]
      exact ih h

theorem alook_map_snd (k : α) (g : β → β) (l : List (α × β)) :
    alook k (l.map fun e => (e.1, g e.2)) = (alook k l).map g := by
  induction l with
  | nil => simp [alook]
  | cons e t ih =>
    by_cases h0 : e.1 = k
    · simp [alook, h0]
    · simp [alook, h0, ih]

theorem alook_asetd_self_isSome (k : α) (v : β) (l : List (α × β)) :
    (alook k (asetd k v l)).isSome := by
  unfold asetd
  by_cases h : (alook k l).isSome
  · rw [if_pos h]
    exact h
  · have hn : alook k l = none := by
      cases hv : alook k l with
      | none => rfl
      | some v0 => rw [hv] at h; exact absurd rfl h
    rw [if_neg h, alook_append_of_none _ hn]
    simp [alook]

theorem alook_asetd_mono {k : α} {l : List (α × β)} (k' : α) (v : β)
    (h : (alook k l).isSome) : (alook k (asetd k' v l)).isSome := by
  unfold asetd
  by_cases h' : (alook k' l).isSome
  · rw [if_pos h']
    exact h
  · rw [if_neg h', alook_append_of_isSome _ h]
    exact h

theorem mem_sinsert_self (x : α) (l : List α) : x ∈ sinsert x l := by
  unfold sinsert
  by_cases h : x ∈ l
  · rw [if_pos h]
    exact h
  · rw [if_neg h]
    simp

theorem mem_sinsert_of_mem {x : α} {l : List α} (y : α) (h : x ∈ l) : x ∈ sinsert y l := by
  unfold sinsert
  by_cases h' : y ∈ l
  · rw [if_pos h']
    exact h
  · rw [if_neg h']
    simp [h]

end AListLemmas

theorem alook_aupd_cases {α β : Type} [DecidableEq α] {k k' : α} {f : β → β}
    {l : List (α × β)} {dn : β} (h : alook k' (aupd k f l) = some dn) :
    (k' = k ∧ ∃ dn0, alook k' l = some dn0 ∧ dn = f dn0) ∨
    (¬ k' = k ∧ alook k' l = some dn) := by
  by_cases hrr : k' = k
  · subst hrr
    rw [alook_aupd_self] at h
    cases hv : alook k' l with
    | none =>
      rw [hv, Option.map_none'] at h
      exact Option.noConfusion h
    | some dn0 =>
      rw [hv, Option.map_some'] at h
      exact Or.inl ⟨rfl, dn0, rfl, (Option.some.inj h).symm⟩
  · rw [alook_aupd_ne hrr] at h
    exact Or.inr ⟨hrr, h⟩

/-- With duplicate-free shelf keys (always true of a Python dict), the
shelf found by the pickup scan is looked up to a record positioned at the
scan position. -/
theorem findShelfAt_alook {l : List (String × ShelfData)} {p : Coord} {sh : String}
    (hnd : (l.map Prod.fst).Nodup) (h : findShelfAt l p = some sh) :
    ∃ sd, alook sh l = some sd ∧ sd.pos = some p := by
  induction l with
  | nil => simp [findShelfAt] at h
  | cons e t ih =>
    simp only [List.map_cons, List.nodup_cons] at hnd
    by_cases h0 : e.2.pos = some p
    · simp only [findShelfAt, if_pos h0, Option.some.injEq] at h
      subst h
      exact ⟨e.2, by simp [alook], h0⟩
    · simp only [findShelfAt, if_neg h0] at h
      obtain ⟨sd, hsd, hpos⟩ := ih hnd.2 h
      refine ⟨sd, ?_, hpos⟩
      have hne : e.1 ≠ sh := by
        intro he
        apply hnd.1
        rw [he]
        rw [← alook_isSome_iff_mem_fst]
        simp [hsd]
      simp [alook, hne, hsd]

/-- When the entries of `l` positioned at `p` have exactly the key list
`[sh]`, the pickup scan finds `sh`. -/
theorem findShelfAt_of_filter {l : List (String × ShelfData)} {p : Coord} {sh : String}
    (h : (l.filter fun e => decide (e.2.pos = some p)).map Prod.fst = [sh]) :
    findShelfAt l p = some sh := by
  induction l with
  | nil => simp at h
  | cons e t ih =>
    by_cases h0 : e.2.pos = some p
    · simp only [List.filter_cons, decide_eq_true_eq, if_pos h0, List.map_cons,
        List.cons.injEq] at h
      simp [findShelfAt, h0, h.1]
    · simp only [List.filter_cons, decide_eq_true_eq, if_neg h0] at h
      simp only [findShelfAt, if_neg h0]
      exact ih h

/-! ### Frame facts about the engine -/

/-- One action step never changes the static fields and never adds or
removes a dictionary key: it only updates values in place. -/
theorem applyAction_frame (cur next : WState) (r : String) (a : Action) :
    (applyAction cur next r a).nodes = next.nodes ∧
    (applyAction cur next r a).highways = next.highways ∧
    (applyAction cur next r a).picking_stations = next.picking_stations ∧
    (applyAction cur next r a).products = next.products ∧
    (applyAction cur next r a).robots.map Prod.fst = next.robots.map Prod.fst ∧
    (applyAction cur next r a).shelves.map Prod.fst = next.shelves.map Prod.fst ∧
    (applyAction cur next r a).orders.map Prod.fst = next.orders.map Prod.fst := by
  refine ⟨?_, ?_, ?_, ?_, ?_, ?_, ?_⟩ <;>
    (unfold applyAction; repeat' split) <;>
    simp [aupd_map_fst]

/-! ### Branch-reduction equations for `applyAction` (one per code path) -/

theorem applyAction_unknown {cur : WState} (next : WState) {r : String} (a : Action)
    (h : alook r cur.robots = none) : applyAction cur next r a = next := by
  unfold applyAction
  rw [h]

theorem applyAction_move {cur : WState} (next : WState) {r : String} {rc : RobotData}
    (dx dy : Int) (h : alook r cur.robots = some rc) :
    applyAction cur next r (Action.move dx dy) =
      { next with
        robots :=
          aupd r (fun rn => { rn with pos := (rc.pos.1 + dx, rc.pos.2 + dy) }) next.robots } := by
  unfold applyAction
  rw [h]

theorem applyAction_pickup_carrying {cur : WState} (next : WState) {r : String}
    {rc : RobotData} {sh : String} (h : alook r cur.robots = some rc)
    (hc : rc.carries = some sh) : applyAction cur next r Action.pickup = next := by
  unfold applyAction
  rw [h]
  simp [hc]

theorem applyAction_pickup_empty {cur : WState} (next : WState) {r : String}
    {rc : RobotData} (h : alook r cur.robots = some rc) (hc : rc.carries = none)
    (hf : findShelfAt cur.shelves rc.pos = none) :
    applyAction cur next r Action.pickup = next := by
  unfold applyAction
  rw [h]
  simp [hc, hf]

theorem applyAction_pickup_found {cur : WState} (next : WState) {r : String}
    {rc : RobotData} {sid : String} (h : alook r cur.robots = some rc)
    (hc : rc.carries = none) (hf : findShelfAt cur.shelves rc.pos = some sid) :
    applyAction cur next r Action.pickup =
      { next with
        robots := aupd r (fun rn => { rn with carries := some sid }) next.robots,
        shelves := aupd sid (fun sd => { sd with pos := none }) next.shelves } := by
  unfold applyAction
  rw [h]
  simp [hc, hf]

theorem applyAction_putdown_nothing {cur : WState} (next : WState) {r : String}
    {rc : RobotData} (h : alook r cur.robots = some rc) (hc : rc.carries = none) :
    applyAction cur next r Action.putdown = next := by
  unfold applyAction
  rw [h]
  simp [hc]

theorem applyAction_putdown_highway {cur : WState} (next : WState) {r : String}
    {rc : RobotData} {sh : String} (h : alook r cur.robots = some rc)
    (hc : rc.carries = some sh) (hh : rc.pos ∈ next.highways) :
    applyAction cur next r Action.putdown = next := by
  unfold applyAction
  rw [h]
  simp [hc, hh]

theorem applyAction_putdown_occupied {cur : WState} (next : WState) {r : String}
    {rc : RobotData} {sh : String} (h : alook r cur.robots = some rc)
    (hc : rc.carries = some sh) (hh : rc.pos ∉ next.highways)
    (ho : occupiedOther next.shelves rc.pos sh = true) :
    applyAction cur next r Action.putdown = next := by
  unfold applyAction
  rw [h]
  simp [hc, hh, ho]

theorem applyAction_putdown_ok {cur : WState} (next : WState) {r : String}
    {rc : RobotData} {sh : String} (h : alook r cur.robots = some rc)
    (hc : rc.carries = some sh) (hh : rc.pos ∉ next.highways)
    (ho : occupiedOther next.shelves rc.pos sh = false) :
    applyAction cur next r Action.putdown =
      { next with
        robots := aupd r (fun rn => { rn with carries := none }) next.robots,
        shelves := aupd sh (fun sd => { sd with pos := some rc.pos }) next.shelves } := by
  unfold applyAction
  rw [h]
  simp [hc, hh, ho]

theorem applyAction_deliver_nothing {cur : WState} (next : WState) {r : String}
    {rc : RobotData} (o p : String) (u : Nat) (h : alook r cur.robots = some rc)
    (hc : rc.carries = none) : applyAction cur next r (Action.deliver o p u) = next := by
  unfold applyAction
  rw [h]
  simp [hc]

theorem applyAction_deliver_no_shelf {cur : WState} (next : WState) {r : String}
    {rc : RobotData} {sh : String} (o p : String) (u : Nat)
    (h : alook r cur.robots = some rc) (hc : rc.carries = some sh)
    (hsd : alook sh next.shelves = none) :
    applyAction cur next r (Action.deliver o p u) = next := by
  unfold applyAction
  rw [h]
  simp [hc, hsd]

theorem applyAction_deliver_no_order {cur : WState} (next : WState) {r : String}
    {rc : RobotData} {sh : String} {sd : ShelfData} {o : String} (p : String) (u : Nat)
    (h : alook r cur.robots = some rc) (hc : rc.carries = some sh)
    (hsd : alook sh next.shelves = some sd) (hod : alook o next.orders = none) :
    applyAction cur next r (Action.deliver o p u) = next := by
  unfold applyAction
  rw [h]
  simp [hc, hsd, hod]

theorem applyAction_deliver_no_product {cur : WState} (next : WState) {r : String}
    {rc : RobotData} {sh : String} {sd : ShelfData} {o : String} {od : OrderData}
    {p : String} (u : Nat) (h : alook r cur.robots = some rc) (hc : rc.carries = some sh)
    (hsd : alook sh next.shelves = some sd) (hod : alook o next.orders = some od)
    (hq : alook p sd.quantities = none) :
    applyAction cur next r (Action.deliver o p u) = next := by
  unfold applyAction
  rw [h]
  simp [hc, hsd, hod, hq]

theorem applyAction_deliver_wrong_station {cur : WState} (next : WState) {r : String}
    {rc : RobotData} {sh : String} {sd : ShelfData} {o : String} {od : OrderData}
    {p : String} {q0 : Int} (u : Nat) (h : alook r cur.robots = some rc)
    (hc : rc.carries = some sh) (hsd : alook sh next.shelves = some sd)
    (hod : alook o next.orders = some od) (hq : alook p sd.quantities = some q0)
    (hst : ¬ alook od.station_id next.picking_stations = some rc.pos) :
    applyAction cur next r (Action.deliver o p u) = next := by
  unfold applyAction
  rw [h]
  simp [hc, hsd, hod, hq, hst]

theorem applyAction_deliver_too_few {cur : WState} (next : WState) {r : String}
    {rc : RobotData} {sh : String} {sd : ShelfData} {o : String} {od : OrderData}
    {p : String} {q0 : Int} {u : Nat} (h : alook r cur.robots = some rc)
    (hc : rc.carries = some sh) (hsd : alook sh next.shelves = some sd)
    (hod : alook o next.orders = some od) (hq : alook p sd.quantities = some q0)
    (hst : alook od.station_id next.picking_stations = some rc.pos)
    (hlt : q0 < (u : Int)) :
    applyAction cur next r (Action.deliver o p u) = next := by
  unfold applyAction
  rw [h]
  simp [hc, hsd, hod, hq, hst, hlt]

theorem applyAction_deliver_ok_req {cur : WState} (next : WState) {r : String}
    {rc : RobotData} {sh : String} {sd : ShelfData} {o : String} {od : OrderData}
    {p : String} {q0 : Int} {u : Nat} (h : alook r cur.robots = some rc)
    (hc : rc.carries = some sh) (hsd : alook sh next.shelves = some sd)
    (hod : alook o next.orders = some od) (hq : alook p sd.quantities = some q0)
    (hst : alook od.station_id next.picking_stations = some rc.pos)
    (hge : ¬ q0 < (u : Int)) (hreq : (alook p od.requirements).isSome = true) :
    applyAction cur next r (Action.deliver o p u) =
      { next with
        shelves :=
          aupd sh (fun sd0 => { sd0 with
            quantities := aupd p (fun q => q - (u : Int)) sd0.quantities }) next.shelves,
        orders :=
          aupd o (fun od0 => { od0 with
            requirements :=
              aupd p (fun q => if q - (u : Int) < 0 then 0 else q - (u : Int))
                od0.requirements }) next.orders } := by
  unfold applyAction
  rw [h]
  simp [hc, hsd, hod, hq, hst, hge, hreq]

theorem applyAction_deliver_ok_noreq {cur : WState} (next : WState) {r : String}
    {rc : RobotData} {sh : String} {sd : ShelfData} {o : String} {od : OrderData}
    {p : String} {q0 : Int} {u : Nat} (h : alook r cur.robots = some rc)
    (hc : rc.carries = some sh) (hsd : alook sh next.shelves = some sd)
    (hod : alook o next.orders = some od) (hq : alook p sd.quantities = some q0)
    (hst : alook od.station_id next.picking_stations = some rc.pos)
    (hge : ¬ q0 < (u : Int)) (hreq : alook p od.requirements = none) :
    applyAction cur next r (Action.deliver o p u) =
      { next with
        shelves :=
          aupd sh (fun sd0 => { sd0 with
            quantities := aupd p (fun q => q - (u : Int)) sd0.quantities }) next.shelves } := by
  unfold applyAction
  rw [h]
  simp [hc, hsd, hod, hq, hst, hge, hreq]

/-- The frame facts extend through a whole timestep. -/
theorem update_state_frame (s : WState) (acts : List (String × Action)) :
    (update_state s acts).nodes = s.nodes ∧
    (update_state s acts).highways = s.highways ∧
    (update_state s acts).picking_stations = s.picking_stations ∧
    (update_state s acts).products = s.products ∧
    (update_state s acts).robots.map Prod.fst = s.robots.map Prod.fst ∧
    (update_state s acts).shelves.map Prod.fst = s.shelves.map Prod.fst ∧
    (update_state s acts).orders.map Prod.fst = s.orders.map Prod.fst := by
  suffices h : ∀ (l : List (String × Action)) (next : WState),
      (l.foldl (fun n e => applyAction s n e.1 e.2) next).nodes = next.nodes ∧
      (l.foldl (fun n e => applyAction s n e.1 e.2) next).highways = next.highways ∧
      (l.foldl (fun n e => applyAction s n e.1 e.2) next).picking_stations =
        next.picking_stations ∧
      (l.foldl (fun n e => applyAction s n e.1 e.2) next).products = next.products ∧
      (l.foldl (fun n e => applyAction s n e.1 e.2) next).robots.map Prod.fst =
        next.robots.map Prod.fst ∧
      (l.foldl (fun n e => applyAction s n e.1 e.2) next).shelves.map Prod.fst =
        next.shelves.map Prod.fst ∧
      (l.foldl (fun n e => applyAction s n e.1 e.2) next).orders.map Prod.fst =
        next.orders.map Prod.fst by
    exact h acts s
  intro l
  induction l with
  | nil => intro next; exact ⟨rfl, rfl, rfl, rfl, rfl, rfl, rfl⟩
  | cons e t ih =>
    intro next
    obtain ⟨a1, a2, a3, a4, a5, a6, a7⟩ := applyAction_frame s next e.1 e.2
    obtain ⟨b1, b2, b3, b4, b5, b6, b7⟩ := ih (applyAction s next e.1 e.2)
    exact ⟨b1.trans a1, b2.trans a2, b3.trans a3, b4.trans a4, b5.trans a5, b6.trans a6,
      b7.trans a7⟩

/-! ### Concrete states used by the claims -/

/-- The initial state of the spec's end-to-end scenario: robot `r1` at
(1,1), shelf `s1` at (1,1) with 5 units of `p1`, order `o1` for 3 units of
`p1` at station `st1` located at (2,2). -/
def scenarioInit : WState :=
  { nodes := [], highways := [], picking_stations := [("st1", (2, 2))],
    robots := [("r1", ⟨(1, 1), none⟩)],
    shelves := [("s1", ⟨some (1, 1), [("p1", 5)]⟩)],
    products := ["p1"],
    orders := [("o1", ⟨"st1", [("p1", 3)]⟩)] }

/-- The state after the scenario's three timesteps, one `update_state`
call per timestep. -/
def scenarioFinal : WState :=
  update_state
    (update_state (update_state scenarioInit [("r1", Action.pickup)])
      [("r1", Action.move 1 1)])
    [("r1", Action.deliver "o1" "p1" 3)]

/-! ### Claim theorems -/

/-- **C2** (counterexample).  The spec's scenario does not end as claimed:
after `Deliver` the robot still carries the shelf (`deliver` never clears
`carries`), so `r1` is not carrying nothing and `s1` has no position
(rather than sitting at (2,2)). -/
theorem c2_scenario_counterexample :
    ¬ (((alook "r1" scenarioFinal.robots).map RobotData.carries = some none) ∧
       ((alook "s1" scenarioFinal.shelves).map ShelfData.pos = some (some (2, 2)))) := by
  decide

/-- **C2** (amended).  The scenario's actual end state: `r1` is at (2,2)
still carrying `s1`; `s1` has no recorded position (it travels with the
robot) and holds 2 units of `p1`; `o1`'s requirement for `p1` is 0. -/
theorem c2_scenario_amended :
    (alook "r1" scenarioFinal.robots).map RobotData.pos = some (2, 2) ∧
    (alook "r1" scenarioFinal.robots).map RobotData.carries = some (some "s1") ∧
    (alook "s1" scenarioFinal.shelves).map ShelfData.pos = some none ∧
    qtyLookup scenarioFinal "s1" "p1" = 2 ∧
    reqLookup scenarioFinal "o1" "p1" = 0 := by
  decide

/-- **C3**.  The transition engine is a pure function of the (state,
actions) pair: applying it twice to the same pair yields structurally
identical results.  The `copy.deepcopy` of line 201 is embedded as a value
copy (`next` starts as the value of `current_state`), so the input state
is a value the call cannot mutate. -/
theorem c3_apply_pure (s : WState) (acts : List (String × Action)) :
    update_state s acts = update_state s acts := rfl

/-- **C8** (counterexample).  A readable, JSON-decodable plan document
with no `Call` entry does *not* abort the run: `parse_plan` returns the
empty plan (not `None`), so the `plan is None` exit of line 473-474 is not
taken — unlike a missing file or undecodable JSON, which do abort. -/
theorem c8_plan_fatal_counterexample :
    parse_plan (PlanInput.doc ⟨[]⟩) = some ([], 0) ∧
    runAborts (PlanInput.doc ⟨[]⟩) = false ∧
    runAborts PlanInput.missingFile = true ∧
    runAborts PlanInput.badJson = true := by
  decide

/-- **C8** (amended).  A plan document missing the expected top-level
fields (no `Call` entry, or no `Witnesses` under the first call) is
treated as recoverable: `parse_plan` warns and returns the empty plan with
`max_time = 0`, and the run continues; only an unreadable or non-JSON
document aborts the run. -/
theorem c8_plan_fatal_amended (d : PlanDoc)
    (h : d.call = [] ∨ ∃ c rest, d.call = c :: rest ∧ c.witnesses = []) :
    parse_plan (PlanInput.doc d) = some ([], 0) ∧
    runAborts (PlanInput.doc d) = false ∧
    runAborts PlanInput.missingFile = true ∧
    runAborts PlanInput.badJson = true := by
  obtain h | ⟨c, rest, hc, hw⟩ := h
  · simp [parse_plan, runAborts, h]
  · simp [parse_plan, runAborts, hc, hw]

/-- **C8** (witness): a document with one call and no witnesses under it. -/
theorem c8_plan_fatal_witness :
    parse_plan (PlanInput.doc ⟨[⟨[]⟩]⟩) = some ([], 0) ∧
    runAborts (PlanInput.doc ⟨[⟨[]⟩]⟩) = false ∧
    runAborts PlanInput.missingFile = true ∧
    runAborts PlanInput.badJson = true :=
  c8_plan_fatal_amended ⟨[⟨[]⟩]⟩ (Or.inr ⟨⟨[]⟩, [], rfl, rfl⟩)

/-! ### Product-universe facts about `parse_init` (claim C7) -/

theorem mem_products_processFact {p : String} {acc : ParseAcc} {f : Fact}
    (h : p ∈ acc.st.products) : p ∈ (processFact acc f).st.products := by
  cases f with
  | node id x y => exact h
  | highway id x y => exact h
  | station id x y => exact h
  | robot id x y => exact h
  | shelfLoc sid x y =>
    simp only [processFact]
    split <;> exact h
  | productQty pid sid qty => exact mem_sinsert_of_mem _ h
  | orderStation oid sid => exact h
  | orderLine oid pid qty => exact mem_sinsert_of_mem _ h
  | unmatched l => exact h

theorem mem_products_of_mention {p : String} (acc : ParseAcc) {f : Fact}
    (h : mentionsProduct f p = true) : p ∈ (processFact acc f).st.products := by
  cases f with
  | node id x y => exact Bool.noConfusion h
  | highway id x y => exact Bool.noConfusion h
  | station id x y => exact Bool.noConfusion h
  | robot id x y => exact Bool.noConfusion h
  | shelfLoc sid x y => exact Bool.noConfusion h
  | productQty pid sid qty =>
    have he : pid = p := by simpa [mentionsProduct] using h
    subst he
    exact mem_sinsert_self _ _
  | orderStation oid sid => exact Bool.noConfusion h
  | orderLine oid pid qty =>
    have he : pid = p := by simpa [mentionsProduct] using h
    subst he
    exact mem_sinsert_self _ _
  | unmatched l => exact Bool.noConfusion h

theorem mem_products_foldl {p : String} (l : List Fact) (acc : ParseAcc)
    (h : p ∈ acc.st.products) : p ∈ (l.foldl processFact acc).st.products := by
  induction l generalizing acc with
  | nil => exact h
  | cons f t ih => exact ih _ (mem_products_processFact h)

theorem mem_products_of_any {p : String} (l : List Fact) (acc : ParseAcc)
    (h : l.any (fun f => mentionsProduct f p) = true) :
    p ∈ (l.foldl processFact acc).st.products := by
  induction l generalizing acc with
  | nil => simp at h
  | cons f t ih =>
    by_cases hf : mentionsProduct f p = true
    · exact mem_products_foldl t _ (mem_products_of_mention acc hf)
    · have ht : t.any (fun f => mentionsProduct f p) = true := by
        rw [List.any_cons] at h
        simpa [hf] using h
      exact ih _ ht

theorem linkShelves_products (tmp : List (String × List (String × Int))) (st : WState) :
    (linkShelves st tmp).products = st.products := by
  induction tmp generalizing st with
  | nil => rfl
  | cons e t ih =>
    rw [show linkShelves st (e :: t) =
        linkShelves
          (if (alook e.1 st.shelves).isSome then
            { st with shelves := aupd e.1 (fun sd => { sd with quantities := e.2 }) st.shelves }
          else st) t from rfl]
    rw [ih]
    split <;> rfl

theorem linkOrders_products (rtmp : List (String × List (String × Int)))
    (stmp : List (String × String)) (st : WState) :
    (linkOrders st rtmp stmp).products = st.products := by
  induction rtmp generalizing st with
  | nil => rfl
  | cons e t ih =>
    rw [show linkOrders st (e :: t) stmp =
        linkOrders
          (match alook e.1 stmp with
          | some sid => { st with orders := aset e.1 ⟨sid, e.2⟩ st.orders }
          | none => st) t stmp from rfl]
    rw [ih]
    cases alook e.1 stmp <;> rfl

theorem alook_foldl_asetd {p : String} (ps : List String) (q : List (String × Int))
    (h : p ∈ ps ∨ (alook p q).isSome) :
    (alook p (ps.foldl (fun qs pid => asetd pid 0 qs) q)).isSome := by
  induction ps generalizing q with
  | nil =>
    rcases h with h | h
    · simp at h
    · exact h
  | cons x ps ih =>
    rcases h with h | h
    · rcases List.mem_cons.mp h with he | he
      · subst he
        exact ih _ (Or.inr (alook_asetd_self_isSome p 0 q))
      · exact ih _ (Or.inl he)
    · exact ih _ (Or.inr (alook_asetd_mono x 0 h))

theorem alook_normShelves (st : WState) (sid : String) :
    alook sid (normShelves st).shelves =
      (alook sid st.shelves).map
        (fun sd0 => { sd0 with
          quantities := st.products.foldl (fun qs pid => asetd pid 0 qs) sd0.quantities }) := by
  simp only [normShelves]
  generalize st.shelves = L
  induction L with
  | nil => rfl
  | cons e t ih =>
    by_cases h0 : e.1 = sid
    · simp [alook, h0]
    · simp [alook, h0, ih]

theorem alook_normOrders (st : WState) (oid : String) :
    alook oid (normOrders st).orders =
      (alook oid st.orders).map
        (fun od0 => { od0 with
          requirements := st.products.foldl (fun rs pid => asetd pid 0 rs) od0.requirements }) := by
  simp only [normOrders]
  generalize st.orders = L
  induction L with
  | nil => rfl
  | cons e t ih =>
    by_cases h0 : e.1 = oid
    · simp [alook, h0]
    · simp [alook, h0, ih]

theorem normShelves_quantities {st : WState} {sid : String} {sd : ShelfData} {p : String}
    (hp : p ∈ st.products) (hsd : alook sid (normShelves st).shelves = some sd) :
    (alook p sd.quantities).isSome := by
  rw [alook_normShelves] at hsd
  cases hv : alook sid st.shelves with
  | none =>
    rw [hv, Option.map_none'] at hsd
    exact Option.noConfusion hsd
  | some sd0 =>
    rw [hv, Option.map_some'] at hsd
    have hval := Option.some.inj hsd
    rw [← hval]
    exact alook_foldl_asetd st.products sd0.quantities (Or.inl hp)

theorem normOrders_requirements {st : WState} {oid : String} {od : OrderData} {p : String}
    (hp : p ∈ st.products) (hod : alook oid (normOrders st).orders = some od) :
    (alook p od.requirements).isSome := by
  rw [alook_normOrders] at hod
  cases hv : alook oid st.orders with
  | none =>
    rw [hv, Option.map_none'] at hod
    exact Option.noConfusion hod
  | some od0 =>
    rw [hv, Option.map_some'] at hod
    have hval := Option.some.inj hod
    rw [← hval]
    exact alook_foldl_asetd st.products od0.requirements (Or.inl hp)

/-! ### Carried-shelf uniqueness (claim C5) -/

/-- No two distinct robots carry the same shelf. -/
def CarryUnique (s : WState) : Prop :=
  ∀ r1 r2 d1 d2 sh, alook r1 s.robots = some d1 → alook r2 s.robots = some d2 →
    r1 ≠ r2 → d1.carries = some sh → d2.carries ≠ some sh

/-- A shelf carried by some robot has no recorded position (its `pos` was
popped at pickup time). -/
def CarriedNoPos (s : WState) : Prop :=
  ∀ r d sh sd, alook r s.robots = some d → d.carries = some sh →
    alook sh s.shelves = some sd → sd.pos = none

/-- The inductive invariant: carrier uniqueness, carried shelves without
positions, and duplicate-free shelf keys (true of every Python dict). -/
def CarryInv (s : WState) : Prop :=
  CarryUnique s ∧ CarriedNoPos s ∧ (s.shelves.map Prod.fst).Nodup

/-- Side condition on one timestep's action list: no two distinct robots
standing on the same cell at the start of the timestep both perform a
Pickup. -/
def GoodStep (s : WState) (acts : List (String × Action)) : Prop :=
  ∀ r1 r2 d1 d2, (r1, Action.pickup) ∈ acts → (r2, Action.pickup) ∈ acts → r1 ≠ r2 →
    alook r1 s.robots = some d1 → alook r2 s.robots = some d2 → d1.pos ≠ d2.pos

/-- States reachable by `apply` calls all of which satisfy `GoodStep`. -/
inductive ReachableGood : WState → WState → Prop where
  | refl (s : WState) : ReachableGood s s
  | step {s t : WState} (acts : List (String × Action)) :
      ReachableGood s t → GoodStep t acts → ReachableGood s (update_state t acts)

/-- Fold invariant while one timestep's actions accumulate in `next`:
every robot record in `next` comes from its `cur` record either unchanged
in its carried shelf, or cleared, or set by a Pickup of this timestep to a
shelf positioned (in `cur`) exactly at the robot's timestep-start cell;
and carried shelves of `next` have no position in `next`. -/
def StepSound (cur next : WState) (acts : List (String × Action)) : Prop :=
  (∀ r dn, alook r next.robots = some dn → ∃ dc, alook r cur.robots = some dc ∧
    (dn.carries = dc.carries ∨ dn.carries = none ∨
      ∃ sh, dn.carries = some sh ∧ dc.carries = none ∧ (r, Action.pickup) ∈ acts ∧
        ∃ sd, alook sh cur.shelves = some sd ∧ sd.pos = some dc.pos)) ∧
  CarriedNoPos next

theorem stepSound_apply (cur next : WState) (acts : List (String × Action))
    (r : String) (a : Action) (hmem : (r, a) ∈ acts) (hinv : CarryInv cur)
    (hss : StepSound cur next acts) : StepSound cur (applyAction cur next r a) acts := by
  obtain ⟨hR, hAux⟩ := hss
  obtain ⟨hCU, hCNP, hND⟩ := hinv
  rcases hrob : alook r cur.robots with _ | rc
  · rw [applyAction_unknown next a hrob]
    exact ⟨hR, hAux⟩
  cases a with
  | move dx dy =>
    rw [applyAction_move next dx dy hrob]
    constructor
    · intro r' dn' hdn'
      rcases alook_aupd_cases hdn' with ⟨hrr, dn0, hdn0, hval⟩ | ⟨hrr, hdn0⟩
      · subst hrr
        obtain ⟨dc, hdc, hcase⟩ := hR r' dn0 hdn0
        refine ⟨dc, hdc, ?_⟩
        have hcc : dn'.carries = dn0.carries := by rw [hval]
        rw [hcc]
        exact hcase
      · exact hR r' dn' hdn0
    · intro r' d sh sd hd hcar hsh
      rcases alook_aupd_cases hd with ⟨hrr, dn0, hdn0, hval⟩ | ⟨hrr, hdn0⟩
      · subst hrr
        have hc0 : dn0.carries = some sh := by
          rw [hval] at hcar
          exact hcar
        exact hAux r' dn0 sh sd hdn0 hc0 hsh
      · exact hAux r' d sh sd hdn0 hcar hsh
  | pickup =>
    rcases hc : rc.carries with _ | sh1
    case some =>
      rw [applyAction_pickup_carrying next hrob hc]
      exact ⟨hR, hAux⟩
    rcases hf : findShelfAt cur.shelves rc.pos with _ | sid
    · rw [applyAction_pickup_empty next hrob hc hf]
      exact ⟨hR, hAux⟩
    · rw [applyAction_pickup_found next hrob hc hf]
      obtain ⟨sdf, hsdf, hsdfpos⟩ := findShelfAt_alook hND hf
      constructor
      · intro r' dn' hdn'
        rcases alook_aupd_cases hdn' with ⟨hrr, dn0, hdn0, hval⟩ | ⟨hrr, hdn0⟩
        · subst hrr
          refine ⟨rc, hrob, Or.inr (Or.inr ⟨sid, ?_, hc, hmem, sdf, hsdf, hsdfpos⟩)⟩
          rw [hval]
        · exact hR r' dn' hdn0
      · intro r' d sh sd hd hcar hsh
        rcases alook_aupd_cases hsh with ⟨hss1, sd0, hsd0, hval1⟩ | ⟨hss1, hsh0⟩
        · rw [hval1]
        · rcases alook_aupd_cases hd with ⟨hrr, dn0, hdn0, hval⟩ | ⟨hrr, hdn0⟩
          · subst hrr
            exfalso
            apply hss1
            have hcd : d.carries = some sid := by rw [hval]
            rw [hcd] at hcar
            exact (Option.some.inj hcar).symm
          · exact hAux r' d sh sd hdn0 hcar hsh0
  | putdown =>
    rcases hc : rc.carries with _ | sh1
    · rw [applyAction_putdown_nothing next hrob hc]
      exact ⟨hR, hAux⟩
    by_cases hh : rc.pos ∈ next.highways
    · rw [applyAction_putdown_highway next hrob hc hh]
      exact ⟨hR, hAux⟩
    cases ho : occupiedOther next.shelves rc.pos sh1 with
    | true =>
      rw [applyAction_putdown_occupied next hrob hc hh ho]
      exact ⟨hR, hAux⟩
    | false =>
      rw [applyAction_putdown_ok next hrob hc hh ho]
      constructor
      · intro r' dn' hdn'
        rcases alook_aupd_cases hdn' with ⟨hrr, dn0, hdn0, hval⟩ | ⟨hrr, hdn0⟩
        · subst hrr
          refine ⟨rc, hrob, Or.inr (Or.inl ?_)⟩
          rw [hval]
        · exact hR r' dn' hdn0
      · intro r' d sh sd hd hcar hsh
        rcases alook_aupd_cases hd with ⟨hrr, dn0, hdn0, hval⟩ | ⟨hrr, hdn0⟩
        · subst hrr
          exfalso
          have hcd : d.carries = none := by rw [hval]
          rw [hcd] at hcar
          exact Option.noConfusion hcar
        · rcases alook_aupd_cases hsh with ⟨hss1, sd0, hsd0, hval1⟩ | ⟨hss1, hsh0⟩
          · subst hss1
            exfalso
            obtain ⟨dc', hdc', hcase⟩ := hR r' d hdn0
            rcases hcase with e1 | e1 | ⟨sh'', e1, hdcn, hm'', sd'', hs'', hp''⟩
            · have hc2 : dc'.carries = some sh := by
                rw [← e1]
                exact hcar
              exact hCU r' r dc' rc sh hdc' hrob hrr hc2 hc
            · rw [e1] at hcar
              exact Option.noConfusion hcar
            · have hsh'' : sh'' = sh := by
                rw [e1] at hcar
                exact Option.some.inj hcar
              subst hsh''
              have hnone := hCNP r rc sh'' sd'' hrob hc hs''
              rw [hnone] at hp''
              exact Option.noConfusion hp''
          · exact hAux r' d sh sd hdn0 hcar hsh0
  | deliver o' p' u =>
    rcases hc : rc.carries with _ | sh1
    · rw [applyAction_deliver_nothing next o' p' u hrob hc]
      exact ⟨hR, hAux⟩
    rcases hsd : alook sh1 next.shelves with _ | sd1
    · rw [applyAction_deliver_no_shelf next o' p' u hrob hc hsd]
      exact ⟨hR, hAux⟩
    rcases hod : alook o' next.orders with _ | od
    · rw [applyAction_deliver_no_order next p' u hrob hc hsd hod]
      exact ⟨hR, hAux⟩
    rcases hq : alook p' sd1.quantities with _ | q0
    · rw [applyAction_deliver_no_product next u hrob hc hsd hod hq]
      exact ⟨hR, hAux⟩
    by_cases hst : alook od.station_id next.picking_stations = some rc.pos
    case neg =>
      rw [applyAction_deliver_wrong_station next u hrob hc hsd hod hq hst]
      exact ⟨hR, hAux⟩
    by_cases hlt : q0 < (u : Int)
    · rw [applyAction_deliver_too_few next hrob hc hsd hod hq hst hlt]
      exact ⟨hR, hAux⟩
    rcases hreq : alook p' od.requirements with _ | r0
    · rw [applyAction_deliver_ok_noreq next hrob hc hsd hod hq hst hlt hreq]
      constructor
      · intro r' dn' hdn'
        exact hR r' dn' hdn'
      · intro r' d sh sd hd hcar hsh
        rcases alook_aupd_cases hsh with ⟨hss1, sd0, hsd0, hval1⟩ | ⟨hss1, hsh0⟩
        · subst hss1
          have h0 := hAux r' d sh sd0 hd hcar hsd0
          rw [hval1]
          exact h0
        · exact hAux r' d sh sd hd hcar hsh0
    · rw [applyAction_deliver_ok_req next hrob hc hsd hod hq hst hlt (by simp [hreq])]
      constructor
      · intro r' dn' hdn'
        exact hR r' dn' hdn'
      · intro r' d sh sd hd hcar hsh
        rcases alook_aupd_cases hsh with ⟨hss1, sd0, hsd0, hval1⟩ | ⟨hss1, hsh0⟩
        · subst hss1
          have h0 := hAux r' d sh sd0 hd hcar hsd0
          rw [hval1]
          exact h0
        · exact hAux r' d sh sd hd hcar hsh0

/-- The timestep-level preservation: a `GoodStep` action list keeps the
carried-shelf invariant. -/
theorem carryInv_update (s : WState) (acts : List (String × Action))
    (hinv : CarryInv s) (hgood : GoodStep s acts) : CarryInv (update_state s acts) := by
  have hfold : ∀ (l : List (String × Action)), (∀ e ∈ l, e ∈ acts) →
      ∀ next, StepSound s next acts →
      StepSound s (l.foldl (fun n e => applyAction s n e.1 e.2) next) acts := by
    intro l
    induction l with
    | nil =>
      intro _ next h
      exact h
    | cons e t ih =>
      intro hsub next h
      exact ih (fun x hx => hsub x (List.mem_cons_of_mem _ hx)) _
        (stepSound_apply s next acts e.1 e.2 (hsub e (List.mem_cons_self _ _)) hinv h)
  have hbase : StepSound s s acts := ⟨fun r dn hdn => ⟨dn, hdn, Or.inl rfl⟩, hinv.2.1⟩
  obtain ⟨hR, hAux⟩ := hfold acts (fun _ h => h) s hbase
  refine ⟨?_, hAux, ?_⟩
  · intro r1 r2 d1 d2 sh h1 h2 hne hc1 hc2
    obtain ⟨dc1, hdc1, hcase1⟩ := hR r1 d1 h1
    obtain ⟨dc2, hdc2, hcase2⟩ := hR r2 d2 h2
    rcases hcase1 with e1 | e1 | ⟨sh1, e1, hn1, hm1, sd1, hs1, hp1⟩
    · have hcc1 : dc1.carries = some sh := by rw [← e1]; exact hc1
      rcases hcase2 with e2 | e2 | ⟨sh2, e2, hn2, hm2, sd2, hs2, hp2⟩
      · have hcc2 : dc2.carries = some sh := by rw [← e2]; exact hc2
        exact hinv.1 r1 r2 dc1 dc2 sh hdc1 hdc2 hne hcc1 hcc2
      · rw [e2] at hc2
        exact Option.noConfusion hc2
      · have hsh2 : sh2 = sh := by rw [e2] at hc2; exact Option.some.inj hc2
        subst hsh2
        have hnone := hinv.2.1 r1 dc1 sh2 sd2 hdc1 hcc1 hs2
        rw [hnone] at hp2
        exact Option.noConfusion hp2
    · rw [e1] at hc1
      exact Option.noConfusion hc1
    · have hsh1 : sh1 = sh := by rw [e1] at hc1; exact Option.some.inj hc1
      subst hsh1
      rcases hcase2 with e2 | e2 | ⟨sh2, e2, hn2, hm2, sd2, hs2, hp2⟩
      · have hcc2 : dc2.carries = some sh1 := by rw [← e2]; exact hc2
        have hnone := hinv.2.1 r2 dc2 sh1 sd1 hdc2 hcc2 hs1
        rw [hnone] at hp1
        exact Option.noConfusion hp1
      · rw [e2] at hc2
        exact Option.noConfusion hc2
      · have hsh2 : sh2 = sh1 := by rw [e2] at hc2; exact Option.some.inj hc2
        subst hsh2
        rw [hs1] at hs2
        have hsd12 : sd1 = sd2 := Option.some.inj hs2
        subst hsd12
        rw [hp1] at hp2
        have hpos : dc1.pos = dc2.pos := by
          have := Option.some.inj hp2
          exact this
        exact hgood r1 r2 dc1 dc2 hm1 hm2 hne hdc1 hdc2 hpos
  · have hfst := (update_state_frame s acts).2.2.2.2.2.1
    rw [hfst]
    exact hinv.2.2

/-- The rejection condition the claim enumerates for
`Deliver(order, product, units)` by a robot whose timestep-start record is
`rc`: the robot carries nothing; the carried shelf is not a known shelf;
the order is unknown; the product is not among the carried shelf's
quantity keys; the robot's position differs from the position of the
station bound to the order (station lookup failure included); or the
shelf's recorded quantity of the product is below `units`. -/
def deliverRejects (s : WState) (rc : RobotData) (o p : String) (u : Nat) : Prop :=
  rc.carries = none ∨
    ∃ sh, rc.carries = some sh ∧
      (alook sh s.shelves = none ∨
        alook o s.orders = none ∨
        ((alook sh s.shelves).bind fun sd => alook p sd.quantities) = none ∨
        orderStationPos s o ≠ some rc.pos ∨
        qtyLookup s sh p < (u : Int))

/-- A state ready for a successful delivery: `r1` stands at station `st1`
(2,2) carrying `s1` (5 units of `p1`); order `o1` wants 3 units of `p1`. -/
def deliverReady : WState :=
  { nodes := [], highways := [], picking_stations := [("st1", (2, 2))],
    robots := [("r1", ⟨(2, 2), some "s1"⟩)],
    shelves := [("s1", ⟨none, [("p1", 5)]⟩)],
    products := ["p1"],
    orders := [("o1", ⟨"st1", [("p1", 3)]⟩)] }

/-- Effect of one action step on one requirement entry: either untouched,
or (for a successful delivery of that order and product) decremented by
the delivered units and clamped at zero. -/
theorem applyAction_req_effect (cur next : WState) (r : String) (a : Action) (o p : String) :
    reqLookup (applyAction cur next r a) o p = reqLookup next o p ∨
    ∃ u : Nat, reqLookup (applyAction cur next r a) o p =
      if reqLookup next o p - (u : Int) < 0 then 0 else reqLookup next o p - (u : Int) := by
  rcases hrob : alook r cur.robots with _ | rc
  · left
    rw [applyAction_unknown next a hrob]
  cases a with
  | move dx dy =>
    left
    rw [applyAction_move next dx dy hrob]
    rfl
  | pickup =>
    rcases hc : rc.carries with _ | sh
    · rcases hf : findShelfAt cur.shelves rc.pos with _ | sid
      · left
        rw [applyAction_pickup_empty next hrob hc hf]
      · left
        rw [applyAction_pickup_found next hrob hc hf]
        rfl
    · left
      rw [applyAction_pickup_carrying next hrob hc]
  | putdown =>
    rcases hc : rc.carries with _ | sh
    · left
      rw [applyAction_putdown_nothing next hrob hc]
    · by_cases hh : rc.pos ∈ next.highways
      · left
        rw [applyAction_putdown_highway next hrob hc hh]
      · cases ho : occupiedOther next.shelves rc.pos sh with
        | false =>
          left
          rw [applyAction_putdown_ok next hrob hc hh ho]
          rfl
        | true =>
          left
          rw [applyAction_putdown_occupied next hrob hc hh ho]
  | deliver o' p' u =>
    rcases hc : rc.carries with _ | sh
    · left
      rw [applyAction_deliver_nothing next o' p' u hrob hc]
    rcases hsd : alook sh next.shelves with _ | sd
    · left
      rw [applyAction_deliver_no_shelf next o' p' u hrob hc hsd]
    rcases hod : alook o' next.orders with _ | od
    · left
      rw [applyAction_deliver_no_order next p' u hrob hc hsd hod]
    rcases hq : alook p' sd.quantities with _ | q0
    · left
      rw [applyAction_deliver_no_product next u hrob hc hsd hod hq]
    by_cases hst : alook od.station_id next.picking_stations = some rc.pos
    case neg =>
      left
      rw [applyAction_deliver_wrong_station next u hrob hc hsd hod hq hst]
    by_cases hlt : q0 < (u : Int)
    · left
      rw [applyAction_deliver_too_few next hrob hc hsd hod hq hst hlt]
    rcases hreq : alook p' od.requirements with _ | r0
    · left
      rw [applyAction_deliver_ok_noreq next hrob hc hsd hod hq hst hlt hreq]
      rfl
    rw [applyAction_deliver_ok_req next hrob hc hsd hod hq hst hlt (by simp [hreq])]
    by_cases hoo : o = o'
    · subst hoo
      by_cases hpp : p = p'
      · subst hpp
        right
        refine ⟨u, ?_⟩
        simp [reqLookup, alook_aupd_self, hod, hreq]
      · left
        simp [reqLookup, alook_aupd_self, hod, alook_aupd_ne hpp]
    · left
      simp [reqLookup, alook_aupd_ne hoo]

/-- **C4**.  Across one `apply` call, every order requirement (read with a
zero default) is monotonically non-increasing and stays non-negative,
provided it was non-negative in the input state — which the data model
guarantees, requirements being parsed from non-negative literals and
clamped at zero by every delivery. -/
theorem c4_requirements_monotone (s : WState) (acts : List (String × Action)) (o p : String)
    (h : 0 ≤ reqLookup s o p) :
    reqLookup (update_state s acts) o p ≤ reqLookup s o p ∧
    0 ≤ reqLookup (update_state s acts) o p := by
  suffices hgen : ∀ (l : List (String × Action)) (next : WState), 0 ≤ reqLookup next o p →
      reqLookup (l.foldl (fun n e => applyAction s n e.1 e.2) next) o p ≤ reqLookup next o p ∧
      0 ≤ reqLookup (l.foldl (fun n e => applyAction s n e.1 e.2) next) o p by
    exact hgen acts s h
  intro l
  induction l with
  | nil =>
    intro next h0
    exact ⟨le_refl _, h0⟩
  | cons e t ih =>
    intro next h0
    have hs : reqLookup (applyAction s next e.1 e.2) o p ≤ reqLookup next o p ∧
        0 ≤ reqLookup (applyAction s next e.1 e.2) o p := by
      rcases applyAction_req_effect s next e.1 e.2 o p with he | ⟨u, he⟩
      · rw [he]
        exact ⟨le_refl _, h0⟩
      · rw [he]
        constructor <;> (split <;> omega)
    obtain ⟨ih1, ih2⟩ := ih (applyAction s next e.1 e.2) hs.2
    exact ⟨le_trans ih1 hs.1, ih2⟩

/-- **C4** (witness): a successful delivery lowers the requirement from 3
to 0 and it stays non-negative. -/
theorem c4_requirements_monotone_witness :
    0 ≤ reqLookup deliverReady "o1" "p1" ∧
    (reqLookup (update_state deliverReady [("r1", Action.deliver "o1" "p1" 3)]) "o1" "p1" ≤
        reqLookup deliverReady "o1" "p1" ∧
      0 ≤ reqLookup (update_state deliverReady [("r1", Action.deliver "o1" "p1" 3)]) "o1" "p1") :=
  ⟨by decide,
    c4_requirements_monotone deliverReady [("r1", Action.deliver "o1" "p1" 3)] "o1" "p1"
      (by decide)⟩

/-- **C1**.  A `Deliver(order, product, units)` by a robot known to the
state is a no-op (the state is returned unchanged) whenever any condition
of `deliverRejects` holds; otherwise the carried shelf's quantity of the
product drops by `units` and the order's requirement for the product
drops by `units`, floored at zero. -/
theorem c1_deliver_semantics (s : WState) (r : String) (rc : RobotData) (o p : String)
    (u : Nat) (hr : alook r s.robots = some rc) :
    (deliverRejects s rc o p u → update_state s [(r, Action.deliver o p u)] = s) ∧
    (∀ sh, rc.carries = some sh → ¬ deliverRejects s rc o p u →
      qtyLookup (update_state s [(r, Action.deliver o p u)]) sh p =
        qtyLookup s sh p - (u : Int) ∧
      reqLookup (update_state s [(r, Action.deliver o p u)]) o p =
        max (reqLookup s o p - (u : Int)) 0) := by
  have hA : update_state s [(r, Action.deliver o p u)] =
      applyAction s s r (Action.deliver o p u) := rfl
  rcases hc : rc.carries with _ | sh0
  · refine ⟨fun _ => ?_, fun sh hsh _ => ?_⟩
    · rw [hA]
      exact applyAction_deliver_nothing s o p u hr hc
    · exact Option.noConfusion hsh
  · rcases hsd : alook sh0 s.shelves with _ | sd
    · refine ⟨fun _ => ?_, fun sh hsh hnrej => absurd ?_ hnrej⟩
      · rw [hA]
        exact applyAction_deliver_no_shelf s o p u hr hc hsd
      · exact Or.inr ⟨sh0, hc, Or.inl hsd⟩
    rcases hod : alook o s.orders with _ | od
    · refine ⟨fun _ => ?_, fun sh hsh hnrej => absurd ?_ hnrej⟩
      · rw [hA]
        exact applyAction_deliver_no_order s p u hr hc hsd hod
      · exact Or.inr ⟨sh0, hc, Or.inr (Or.inl hod)⟩
    rcases hq : alook p sd.quantities with _ | q0
    · refine ⟨fun _ => ?_, fun sh hsh hnrej => absurd ?_ hnrej⟩
      · rw [hA]
        exact applyAction_deliver_no_product s u hr hc hsd hod hq
      · refine Or.inr ⟨sh0, hc, Or.inr (Or.inr (Or.inl ?_))⟩
        rw [hsd]
        simpa using hq
    by_cases hst : alook od.station_id s.picking_stations = some rc.pos
    case neg =>
      refine ⟨fun _ => ?_, fun sh hsh hnrej => absurd ?_ hnrej⟩
      · rw [hA]
        exact applyAction_deliver_wrong_station s u hr hc hsd hod hq hst
      · refine Or.inr ⟨sh0, hc, Or.inr (Or.inr (Or.inr (Or.inl ?_)))⟩
        unfold orderStationPos
        rw [hod]
        simpa using hst
    by_cases hlt : q0 < (u : Int)
    · refine ⟨fun _ => ?_, fun sh hsh hnrej => absurd ?_ hnrej⟩
      · rw [hA]
        exact applyAction_deliver_too_few s hr hc hsd hod hq hst hlt
      · refine Or.inr ⟨sh0, hc, Or.inr (Or.inr (Or.inr (Or.inr ?_)))⟩
        simpa [qtyLookup, hsd, hq] using hlt
    · constructor
      · intro hrej
        exfalso
        rcases hrej with hn | ⟨sh', hsh', hdis⟩
        · rw [hc] at hn
          exact Option.noConfusion hn
        · rw [hc] at hsh'
          injection hsh' with he
          subst he
          rcases hdis with h | h | h | h | h
          · rw [hsd] at h
            exact Option.noConfusion h
          · rw [hod] at h
            exact Option.noConfusion h
          · rw [hsd] at h
            simp only [Option.some_bind] at h
            rw [hq] at h
            exact Option.noConfusion h
          · apply h
            unfold orderStationPos
            rw [hod]
            simpa using hst
          · rw [show qtyLookup s sh0 p = q0 by simp [qtyLookup, hsd, hq]] at h
            exact hlt h
      · intro sh hsh hnrej
        injection hsh with he
        subst he
        rcases hreq : alook p od.requirements with _ | r0
        · have hred := applyAction_deliver_ok_noreq s hr hc hsd hod hq hst hlt hreq
          rw [hA, hred]
          constructor
          · simp [qtyLookup, alook_aupd_self, hsd, hq]
          · have h1 : reqLookup { s with
                shelves :=
                  aupd sh0 (fun sd0 => { sd0 with
                    quantities := aupd p (fun q => q - (u : Int)) sd0.quantities })
                    s.shelves } o p = reqLookup s o p := rfl
            rw [h1]
            have h2 : reqLookup s o p = 0 := by
              simp [reqLookup, hod, hreq]
            rw [h2]
            omega
        · have hred := applyAction_deliver_ok_req s hr hc hsd hod hq hst hlt (by simp [hreq])
          rw [hA, hred]
          constructor
          · simp [qtyLookup, alook_aupd_self, hsd, hq]
          · have h2 : reqLookup s o p = r0 := by
              simp [reqLookup, hod, hreq]
            rw [h2]
            simp [reqLookup, alook_aupd_self, hod, hreq]
            omega

/-- **C1** (witness): a successful concrete delivery; none of the
rejection conditions holds, the shelf quantity drops 5 → 2 and the
requirement drops 3 → 0. -/
theorem c1_deliver_semantics_witness :
    alook "r1" deliverReady.robots = some ⟨(2, 2), some "s1"⟩ ∧
    (qtyLookup (update_state deliverReady [("r1", Action.deliver "o1" "p1" 3)]) "s1" "p1" =
        qtyLookup deliverReady "s1" "p1" - (3 : Int) ∧
      reqLookup (update_state deliverReady [("r1", Action.deliver "o1" "p1" 3)]) "o1" "p1" =
        max (reqLookup deliverReady "o1" "p1" - (3 : Int)) 0) := by
  have hnr : ¬ deliverRejects deliverReady ⟨(2, 2), some "s1"⟩ "o1" "p1" 3 := by
    rintro (h | ⟨sh, hsh, hdis⟩)
    · exact Option.noConfusion h
    · injection hsh with he
      subst he
      revert hdis
      decide
  exact ⟨by decide,
    (c1_deliver_semantics deliverReady "r1" ⟨(2, 2), some "s1"⟩ "o1" "p1" 3 (by decide)).2
      "s1" rfl hnr⟩

/-- Every robot of a state whose robots all carry nothing is a trivially
unique carrier. -/
theorem carryUnique_of_none {s : WState} (h : ∀ e ∈ s.robots, e.2.carries = none) :
    CarryUnique s := by
  intro r1 r2 d1 d2 sh h1 _ _ hc1
  have hn := h _ (alook_mem h1)
  rw [hn] at hc1
  exact absurd hc1 (by simp)

/-- In a state whose robots all carry nothing, `CarriedNoPos` holds
vacuously. -/
theorem carriedNoPos_of_none {s : WState} (h : ∀ e ∈ s.robots, e.2.carries = none) :
    CarriedNoPos s := by
  intro r d sh sd hd hc _
  have hn := h _ (alook_mem hd)
  rw [hn] at hc
  exact Option.noConfusion hc

/-- Two robots on the same cell, one shelf there, both picking up in the
same timestep. -/
def doublePickup : WState :=
  { nodes := [], highways := [], picking_stations := [],
    robots := [("r1", ⟨(1, 1), none⟩), ("r2", ⟨(1, 1), none⟩)],
    shelves := [("s1", ⟨some (1, 1), []⟩)],
    products := [], orders := [] }

/-- **C5** (counterexample).  From an initial state in which no robot
carries anything, one `apply` call in which two robots standing on the
same cell both perform Pickup leaves *both* carrying the same shelf: each
pickup searches the timestep-start snapshot (line 227), where the shelf
still has its position. -/
theorem c5_unique_carrier_counterexample :
    (∀ e ∈ doublePickup.robots, e.2.carries = none) ∧
    ¬ CarryUnique (update_state doublePickup
        [("r1", Action.pickup), ("r2", Action.pickup)]) := by
  constructor
  · decide
  · intro h
    exact h "r1" "r2" ⟨(1, 1), some "s1"⟩ ⟨(1, 1), some "s1"⟩ "s1" (by decide) (by decide)
      (by decide) rfl rfl

/-- **C5** (amended).  In every state reachable from a state satisfying
the carried-shelf invariant (carrier uniqueness, carried shelves without
recorded positions, duplicate-free shelf keys — all true of a parsed
initial state, where no robot carries anything) through `apply` calls
whose action lists never have two distinct robots on the same
timestep-start cell both performing Pickup, each shelf is carried by at
most one robot. -/
theorem c5_unique_carrier_amended (s t : WState) (hinv : CarryInv s)
    (hreach : ReachableGood s t) : CarryInv t := by
  induction hreach with
  | refl => exact hinv
  | step acts _ hg ih => exact carryInv_update _ acts ih hg

/-- **C5** (witness): one reachability step consisting of a single pickup
from the scenario's initial state. -/
theorem c5_unique_carrier_witness :
    CarryInv (update_state scenarioInit [("r1", Action.pickup)]) := by
  have hg : GoodStep scenarioInit [("r1", Action.pickup)] := by
    intro r1 r2 d1 d2 h1 h2 hne _ _
    exfalso
    apply hne
    have e1 : r1 = "r1" := congrArg Prod.fst (List.mem_singleton.mp h1)
    have e2 : r2 = "r1" := congrArg Prod.fst (List.mem_singleton.mp h2)
    rw [e1, e2]
  exact c5_unique_carrier_amended scenarioInit _
    ⟨carryUnique_of_none (by decide), carriedNoPos_of_none (by decide), by decide⟩
    (ReachableGood.step [("r1", Action.pickup)] (ReachableGood.refl _) hg)

/-- A warehouse whose only cell (1,1) is a highway: the robot can pick the
shelf up there, but can never put it down again. -/
def highwayTrap : WState :=
  { nodes := [(1, 1)], highways := [(1, 1)], picking_stations := [],
    robots := [("r1", ⟨(1, 1), none⟩)],
    shelves := [("s1", ⟨some (1, 1), []⟩)],
    products := [], orders := [] }

/-- **C6** (counterexample).  On a highway cell the claim fails: the
pickup succeeds (pickup performs no highway check) but the immediately
following putdown is rejected (lines 244-246), so the shelf is *not*
restored to its original position and the robot keeps carrying it. -/
theorem c6_pickup_putdown_counterexample :
    alook "r1" highwayTrap.robots = some ⟨(1, 1), none⟩ ∧
    (highwayTrap.shelves.filter fun e => decide (e.2.pos = some (1, 1))).map Prod.fst =
      ["s1"] ∧
    ¬ (((alook "s1" (update_state (update_state highwayTrap [("r1", Action.pickup)])
            [("r1", Action.putdown)]).shelves).map ShelfData.pos = some (some (1, 1))) ∧
        ((alook "r1" (update_state (update_state highwayTrap [("r1", Action.pickup)])
            [("r1", Action.putdown)]).robots).map RobotData.carries = some none)) := by
  decide

/-- **C6** (amended).  If robot `r` carries nothing, exactly one shelf
`sh` occupies `r`'s position, *and that position is not a highway*, then a
Pickup timestep followed by a Putdown timestep (no Move between) restores
the shelf to its original position and leaves the robot carrying
nothing. -/
theorem c6_pickup_putdown_amended (s : WState) (r : String) (rd : RobotData) (sh : String)
    (hr : alook r s.robots = some rd) (hc : rd.carries = none)
    (hone : (s.shelves.filter fun e => decide (e.2.pos = some rd.pos)).map Prod.fst = [sh])
    (hhw : rd.pos ∉ s.highways) :
    (alook sh (update_state (update_state s [(r, Action.pickup)])
        [(r, Action.putdown)]).shelves).map ShelfData.pos = some (some rd.pos) ∧
    (alook r (update_state (update_state s [(r, Action.pickup)])
        [(r, Action.putdown)]).robots).map RobotData.carries = some none := by
  have hfind : findShelfAt s.shelves rd.pos = some sh := findShelfAt_of_filter hone
  have hs1 : update_state s [(r, Action.pickup)] =
      { s with
        robots := aupd r (fun rn => { rn with carries := some sh }) s.robots,
        shelves := aupd sh (fun sd => { sd with pos := none }) s.shelves } := by
    show applyAction s s r Action.pickup = _
    exact applyAction_pickup_found s hr hc hfind
  set s1 := update_state s [(r, Action.pickup)] with hs1def
  have hr1 : alook r s1.robots = some { rd with carries := some sh } := by
    rw [hs1]
    show alook r (aupd r _ s.robots) = _
    rw [alook_aupd_self, hr]
    rfl
  have hhw1 : ({ rd with carries := some sh } : RobotData).pos ∉ s1.highways := by
    rw [hs1]
    exact hhw
  have hocc : occupiedOther s1.shelves ({ rd with carries := some sh } : RobotData).pos sh
      = false := by
    rw [hs1]
    show occupiedOther (aupd sh _ s.shelves) rd.pos sh = false
    unfold occupiedOther
    rw [List.any_eq_false]
    intro e he
    rcases mem_aupd he with h1 | h1
    · simp [h1]
    · by_cases hp : e.2.pos = some rd.pos
      · have hef : e ∈ s.shelves.filter (fun e => decide (e.2.pos = some rd.pos)) :=
          List.mem_filter.mpr ⟨h1, by simp [hp]⟩
        have hm : e.1 ∈ (s.shelves.filter
            (fun e => decide (e.2.pos = some rd.pos))).map Prod.fst :=
          List.mem_map_of_mem _ hef
        rw [hone] at hm
        have : e.1 = sh := by simpa using hm
        simp [this]
      · simp [hp]
  have hs2 : update_state s1 [(r, Action.putdown)] =
      { s1 with
        robots := aupd r (fun rn => { rn with carries := none }) s1.robots,
        shelves :=
          aupd sh (fun sd => { sd with
            pos := some ({ rd with carries := some sh } : RobotData).pos }) s1.shelves } := by
    show applyAction s1 s1 r Action.putdown = _
    exact applyAction_putdown_ok s1 hr1 rfl hhw1 hocc
  rw [hs2]
  have hshin : (alook sh s.shelves).isSome := by
    have hm : sh ∈ (s.shelves.filter (fun e => decide (e.2.pos = some rd.pos))).map Prod.fst :=
      by rw [hone]; simp
    obtain ⟨e, hef, hfst⟩ := List.mem_map.mp hm
    rw [alook_isSome_iff_mem_fst]
    rw [← hfst]
    exact List.mem_map_of_mem _ (List.mem_filter.mp hef).1
  obtain ⟨sd0, hsd0⟩ := Option.isSome_iff_exists.mp hshin
  constructor
  · show (alook sh (aupd sh _ s1.shelves)).map ShelfData.pos = _
    rw [alook_aupd_self]
    rw [hs1]
    show ((alook sh (aupd sh _ s.shelves)).map _).map ShelfData.pos = _
    rw [alook_aupd_self, hsd0]
    rfl
  · show (alook r (aupd r _ s1.robots)).map RobotData.carries = _
    rw [alook_aupd_self, hr1]
    rfl

/-- **C6** (witness): the scenario's initial state satisfies all
amended hypotheses (its cell is not a highway), and the round trip
restores the shelf. -/
theorem c6_pickup_putdown_witness :
    alook "r1" scenarioInit.robots = some ⟨(1, 1), none⟩ ∧
    ((alook "s1" (update_state (update_state scenarioInit [("r1", Action.pickup)])
        [("r1", Action.putdown)]).shelves).map ShelfData.pos = some (some (1, 1)) ∧
      (alook "r1" (update_state (update_state scenarioInit [("r1", Action.pickup)])
        [("r1", Action.putdown)]).robots).map RobotData.carries = some none) :=
  ⟨by decide,
    c6_pickup_putdown_amended scenarioInit "r1" ⟨(1, 1), none⟩ "s1" (by decide) rfl
      (by decide) (by decide)⟩

/-- A small fact file: shelf `s1` with 5 units of `p1`; order `o1` at
station `st1` asking 2 units of `p2`. -/
def sampleFacts : List Fact :=
  [Fact.shelfLoc "s1" 1 1, Fact.productQty "p1" "s1" 5,
    Fact.orderStation "o1" "st1", Fact.orderLine "o1" "p2" 2]

/-- **C7**.  After `parse_init`'s normalization passes, every shelf's
quantity mapping and every order's requirement mapping has an entry
(possibly zero) for every product of the global product universe — i.e.
for every product mentioned by any product-quantity or order-line fact. -/
theorem c7_normalization (facts : List Fact) (p : String)
    (hp : facts.any (fun f => mentionsProduct f p) = true) :
    (∀ sid sd, alook sid (parse_init facts).1.shelves = some sd →
      (alook p sd.quantities).isSome = true) ∧
    (∀ oid od, alook oid (parse_init facts).1.orders = some od →
      (alook p od.requirements).isSome = true) := by
  set acc := facts.foldl processFact ⟨emptyState, 0, 0, [], [], []⟩ with hacc
  have hparse : (parse_init facts).1 =
      normOrders (normShelves (linkOrders (linkShelves acc.st acc.shelf_q_temp)
        acc.order_r_temp acc.order_s_temp)) := rfl
  set st2 := linkOrders (linkShelves acc.st acc.shelf_q_temp) acc.order_r_temp
    acc.order_s_temp with hst2
  have hp2 : p ∈ st2.products := by
    rw [hst2, linkOrders_products, linkShelves_products]
    exact mem_products_of_any facts _ hp
  constructor
  · intro sid sd hsd
    rw [hparse] at hsd
    rw [show (normOrders (normShelves st2)).shelves = (normShelves st2).shelves from rfl]
      at hsd
    exact normShelves_quantities hp2 hsd
  · intro oid od hod
    rw [hparse] at hod
    exact @normOrders_requirements (normShelves st2) oid od p hp2 hod

/-- **C7** (witness): in the parsed sample, shelf `s1` gets a zero entry
for `p2` (mentioned only by the order line) and order `o1` gets entries
for both products. -/
theorem c7_normalization_witness :
    sampleFacts.any (fun f => mentionsProduct f "p2") = true ∧
    (alook "s1" (parse_init sampleFacts).1.shelves =
      some ⟨some (1, 1), [("p1", 5), ("p2", 0)]⟩) ∧
    (alook "p2" (⟨some (1, 1), [("p1", 5), ("p2", 0)]⟩ : ShelfData).quantities).isSome
      = true := by
  refine ⟨by decide, by decide, ?_⟩
  exact (c7_normalization sampleFacts "p2" (by decide)).1 "s1" _ (by decide)

/-- **C9**.  A `Move(dx,dy)` by a robot known to the state always takes
effect, with no bounds, node-membership, highway or collision check: no
matter what actions precede it in the same timestep, the position it
writes (and, as the last action here, the robot's resulting position) is
the robot's *timestep-start* position plus `(dx,dy)` — earlier writes of
the same timestep are not read. -/
theorem c9_move_always (s : WState) (pre : List (String × Action)) (r : String)
    (rd : RobotData) (dx dy : Int) (hr : alook r s.robots = some rd) :
    (alook r (update_state s (pre ++ [(r, Action.move dx dy)])).robots).map RobotData.pos =
      some (rd.pos.1 + dx, rd.pos.2 + dy) := by
  have hsplit : update_state s (pre ++ [(r, Action.move dx dy)]) =
      applyAction s (update_state s pre) r (Action.move dx dy) := by
    simp only [update_state, List.foldl_append, List.foldl]
  have hfst := (update_state_frame s pre).2.2.2.2.1
  have hsome : (alook r (update_state s pre).robots).isSome := by
    rw [alook_isSome_congr hfst, hr]
    rfl
  obtain ⟨rd', hrd'⟩ := Option.isSome_iff_exists.mp hsome
  rw [hsplit, applyAction_move _ dx dy hr]
  simp only [alook_aupd_self, hrd', Option.map_map, Option.map_some']

/-- **C9** (witness): the prefix contains an earlier move of the same
robot, which is ignored by the final move's read of the timestep-start
snapshot. -/
theorem c9_move_always_witness :
    alook "r1" scenarioInit.robots = some ⟨(1, 1), none⟩ ∧
    (alook "r1" (update_state scenarioInit
        ([("r1", Action.move 5 5)] ++ [("r1", Action.move 1 1)])).robots).map RobotData.pos =
      some (2, 2) :=
  ⟨by decide,
    c9_move_always scenarioInit [("r1", Action.move 5 5)] "r1" ⟨(1, 1), none⟩ 1 1 (by decide)⟩

/-- **C10**.  A single `Move(dx,dy)` by a known robot changes only that
robot's position: its carried-shelf field, all other robots, all shelves,
all orders, and the static nodes/highways/stations/products are
unchanged. -/
theorem c10_move_frame (s : WState) (r : String) (rd : RobotData) (dx dy : Int)
    (hr : alook r s.robots = some rd) :
    (update_state s [(r, Action.move dx dy)]).nodes = s.nodes ∧
    (update_state s [(r, Action.move dx dy)]).highways = s.highways ∧
    (update_state s [(r, Action.move dx dy)]).picking_stations = s.picking_stations ∧
    (update_state s [(r, Action.move dx dy)]).products = s.products ∧
    (update_state s [(r, Action.move dx dy)]).shelves = s.shelves ∧
    (update_state s [(r, Action.move dx dy)]).orders = s.orders ∧
    alook r (update_state s [(r, Action.move dx dy)]).robots =
      some { rd with pos := (rd.pos.1 + dx, rd.pos.2 + dy) } ∧
    ∀ r2, r2 ≠ r →
      alook r2 (update_state s [(r, Action.move dx dy)]).robots = alook r2 s.robots := by
  have hres : update_state s [(r, Action.move dx dy)] =
      { s with
        robots :=
          aupd r (fun rn => { rn with pos := (rd.pos.1 + dx, rd.pos.2 + dy) }) s.robots } := by
    show applyAction s s r (Action.move dx dy) = _
    exact applyAction_move s dx dy hr
  rw [hres]
  refine ⟨rfl, rfl, rfl, rfl, rfl, rfl, ?_, ?_⟩
  · show alook r (aupd r _ s.robots) = _
    rw [alook_aupd_self, hr]
    rfl
  · intro r2 h2
    exact alook_aupd_ne h2 _ _

/-- **C10** (witness). -/
theorem c10_move_frame_witness :
    alook "r1" scenarioInit.robots = some ⟨(1, 1), none⟩ ∧
    ((update_state scenarioInit [("r1", Action.move 1 2)]).shelves = scenarioInit.shelves ∧
      alook "r1" (update_state scenarioInit [("r1", Action.move 1 2)]).robots =
        some ⟨(2, 3), none⟩) :=
  ⟨by decide,
    ⟨(c10_move_frame scenarioInit "r1" ⟨(1, 1), none⟩ 1 2 (by decide)).2.2.2.2.1,
      (c10_move_frame scenarioInit "r1" ⟨(1, 1), none⟩ 1 2 (by decide)).2.2.2.2.2.2.1⟩⟩

end Warehouse
